import Mathlib

/-!
Verification development for the loglens-core query engine
(src/query.rs, src/time.rs).  The Rust code is shallowly embedded:
strings are Lean strings manipulated through executable list-of-char
helpers mirroring the Rust std string operations used by the source,
f64 values are modelled as exact rationals, and the impure clock
(Utc::now / SystemTime::now) is threaded through as an explicit
integer parameter holding the current Unix time in seconds.
-/

namespace LogLens

/-! ## String helpers

Executable models of the Rust std string operations used by the engine.
Every helper works on the character list of the string so that all of
them reduce inside the kernel.  Rust compares strings byte-wise; UTF-8
byte order coincides with code-point order, so character-wise
comparison is faithful.
-/

/-- Model of Rust str::find followed by a split at the first occurrence of
a pattern: returns the text before and after the first occurrence, or
none when the pattern does not occur. -/
def splitFirst (pat : List Char) : List Char → Option (List Char × List Char)
  | [] => if pat = [] then some ([], []) else none
  | c :: rest =>
    if pat.isPrefixOf (c :: rest) then some ([], (c :: rest).drop pat.length)
    else match splitFirst pat rest with
      | some (pre, post) => some (c :: pre, post)
      | none => none

/-- Model of Rust str::contains for a literal pattern. -/
def containsSub (s pat : String) : Bool :=
  (splitFirst pat.data s.data).isSome

/-- Model of Rust str::splitn(2, pat) when the pattern occurs: the parts
before and after the first occurrence. -/
def splitFirstStr (s pat : String) : Option (String × String) :=
  (splitFirst pat.data s.data).map (fun p => (String.mk p.1, String.mk p.2))

/-- Auxiliary scanner for splitOnStr, driven by fuel that starts at the
length of the text plus one so that it never runs out. -/
def splitOnAux (sep : List Char) : Nat → List Char → List Char → List (List Char)
  | 0, acc, cs => [acc.reverse ++ cs]
  | fuel + 1, acc, cs =>
    if sep ≠ [] ∧ sep.isPrefixOf cs then
      acc.reverse :: splitOnAux sep fuel [] (cs.drop sep.length)
    else match cs with
      | [] => [acc.reverse]
      | c :: rest => splitOnAux sep fuel (c :: acc) rest

/-- Model of Rust str::split with a literal separator (leftmost,
non-overlapping matches; a trailing separator yields a final empty
part). -/
def splitOnStr (s sep : String) : List String :=
  (splitOnAux sep.data (s.data.length + 1) [] s.data).map String.mk

/-- Auxiliary scanner for strReplace, fuel-driven like splitOnAux. -/
def replaceAux (pat rep : List Char) : Nat → List Char → List Char
  | 0, cs => cs
  | fuel + 1, cs =>
    if pat ≠ [] ∧ pat.isPrefixOf cs then
      rep ++ replaceAux pat rep fuel (cs.drop pat.length)
    else match cs with
      | [] => []
      | c :: rest => c :: replaceAux pat rep fuel rest

/-- Model of Rust str::replace (all non-overlapping occurrences). -/
def strReplace (s pat rep : String) : String :=
  String.mk (replaceAux pat.data rep.data (s.data.length + 1) s.data)

/-- Whitespace predicate used by trimming; Rust trims the Unicode
White_Space class, of which the ASCII members are the ones that occur
in queries. -/
def isWs (c : Char) : Bool :=
  c == ' ' || c == '\t' || c == '\n' || c == '\r'

/-- Model of Rust str::trim. -/
def strTrim (s : String) : String :=
  String.mk (((s.data.dropWhile isWs).reverse.dropWhile isWs).reverse)

/-- Quote characters stripped by the engine around operands. -/
def isQuote (c : Char) : Bool :=
  c == '"' || c == '\''

/-- Model of the Rust trim_matches(|c| c == quote) calls: repeatedly
strip quote characters from both ends. -/
def trimQuotes (s : String) : String :=
  String.mk (((s.data.dropWhile isQuote).reverse.dropWhile isQuote).reverse)

/-- Model of Rust str::starts_with for a literal pattern. -/
def strStartsWith (s pat : String) : Bool :=
  pat.data.isPrefixOf s.data

/-- Model of Rust str::ends_with for a literal pattern. -/
def strEndsWith (s pat : String) : Bool :=
  pat.data.isSuffixOf s.data

/-- Model of Rust byte slicing s[n..] for the ASCII prefixes sliced by
the engine (every sliced prefix is one ASCII character per byte). -/
def strDrop (s : String) (n : Nat) : String :=
  String.mk (s.data.drop n)

/-- Model of Rust byte slicing s[..len-n] for an ASCII suffix. -/
def strDropRight (s : String) (n : Nat) : String :=
  String.mk (s.data.take (s.data.length - n))

/-- Model of Rust str::to_lowercase restricted to ASCII letters, the
case mapping exercised by log queries. -/
def lower (s : String) : String :=
  String.mk (s.data.map Char.toLower)

/-- Byte-wise (here: character-wise) comparison, the order of Rust
str::cmp. -/
def compareChars : List Char → List Char → Ordering
  | [], [] => .eq
  | [], _ :: _ => .lt
  | _ :: _, [] => .gt
  | a :: xs, b :: ys =>
    if a < b then .lt else if b < a then .gt else compareChars xs ys

/-- Comparison of two strings as Rust str::cmp. -/
def compareStr (a b : String) : Ordering :=
  compareChars a.data b.data

/-- Digits of a numeral, most significant first, folded to a natural. -/
def digitsToNat (ds : List Char) : Nat :=
  ds.foldl (fun n c => n * 10 + (c.toNat - 48)) 0

/-- True when the list starts with a decimal digit. -/
def digitLeads : List Char → Bool
  | c :: _ => c.isDigit
  | [] => false

/-! ## Numeric model

f64 values are modelled as exact rationals.  The engine only produces
floats by parsing decimal literals and comparing them, which the exact
rational model reproduces; non-finite inputs (inf, nan) are modelled as
unparsable, matching the engine treating them as comparison failures.
-/

/-- Powers of ten by structural recursion, so that all rational values
built by the parsers reduce inside the kernel. -/
def pow10 : Nat → Nat
  | 0 => 1
  | k + 1 => 10 * pow10 k

/-- Exact rational value of an optionally signed decimal with integer
part ip, fractional part fp and decimal exponent ex. -/
def decimalToRat (sign : Int) (ip fp : List Char) (ex : Int) : Rat :=
  let mant : Int := sign * (digitsToNat (ip ++ fp) : Int)
  if 0 ≤ ex then mkRat (mant * (pow10 ex.toNat : Int)) (pow10 fp.length)
  else mkRat mant (pow10 fp.length * pow10 (-ex).toNat)

/-- Model of Rust str::parse::<f64> restricted to finite decimal
literals: optional sign, digits with an optional fractional part (at
least one digit overall), optional decimal exponent.  The whole string
must be consumed. -/
def parseF64? (s : String) : Option Rat :=
  match s.data with
  | [] => none
  | cs =>
    let (sign, cs1) : Int × List Char :=
      match cs with
      | '+' :: r => (1, r)
      | '-' :: r => (-1, r)
      | r => (1, r)
    let ip := cs1.takeWhile Char.isDigit
    let r1 := cs1.dropWhile Char.isDigit
    let (fp, r2) : List Char × List Char :=
      match r1 with
      | '.' :: r => (r.takeWhile Char.isDigit, r.dropWhile Char.isDigit)
      | r => ([], r)
    if ip = [] ∧ fp = [] then none
    else
      match r2 with
      | [] => some (decimalToRat sign ip fp 0)
      | e :: r3 =>
        if e == 'e' || e == 'E' then
          let (esign, r4) : Int × List Char :=
            match r3 with
            | '+' :: r => (1, r)
            | '-' :: r => (-1, r)
            | r => (1, r)
          let ed := r4.takeWhile Char.isDigit
          let r5 := r4.dropWhile Char.isDigit
          if ed = [] ∨ r5 ≠ [] then none
          else some (decimalToRat sign ip fp (esign * (digitsToNat ed : Int)))
        else none

/-- Auxiliary scanner for extractNumbers, fuel-driven: at each position
either a maximal regex match -?digits(.digits)? is taken or one
character is skipped, exactly as regex find_iter walks the text. -/
def scanNumbersAux : Nat → List Char → List Rat
  | 0, _ => []
  | _ + 1, [] => []
  | fuel + 1, c :: rest =>
    if c.isDigit ∨ (c = '-' ∧ digitLeads rest) then
      let neg : Int := if c = '-' then -1 else 1
      let body := if c = '-' then rest else c :: rest
      let ip := body.takeWhile Char.isDigit
      let r1 := body.dropWhile Char.isDigit
      let (fp, r2) : List Char × List Char :=
        match r1 with
        | '.' :: r => if digitLeads r then (r.takeWhile Char.isDigit, r.dropWhile Char.isDigit) else ([], '.' :: r)
        | r => ([], r)
      decimalToRat neg ip fp 0 :: scanNumbersAux fuel r2
    else scanNumbersAux fuel rest

/-- Model of extract_numbers (src/query.rs): all substrings matching
the pattern -?digits(.digits)? in order of occurrence, parsed as
numbers.  The parse of a match never fails, so the filter_map in the
source skips nothing. -/
def extractNumbers (text : String) : List Rat :=
  scanNumbersAux (text.data.length + 1) text.data

/-! ## Structured values

Model of the serde_json::Value tree read by the engine. -/

/-- Number of a structured value: serde_json stores either an integer
(i64 or u64, merged here) or an f64. -/
inductive JNum
  | int (i : Int)
  | float (q : Rat)

/-- Model of serde_json::Value. -/
inductive JValue
  | null
  | bool (b : Bool)
  | num (n : JNum)
  | str (s : String)
  | arr (xs : List JValue)
  | obj (fields : List (String × JValue))

/-- Model of Value::as_f64: any number viewed as f64. -/
def JValue.asF64 : JValue → Option Rat
  | .num (.int i) => some (mkRat i 1)
  | .num (.float q) => some q
  | _ => none

/-- Model of Value::as_i64: only integer numbers. -/
def JValue.asI64 : JValue → Option Int
  | .num (.int i) => some i
  | _ => none

/-- Model of Value::as_str. -/
def JValue.asStr : JValue → Option String
  | .str s => some s
  | _ => none

/-- Model of Value::get with a string key: object lookup, none for
every other value kind. -/
def JValue.get (v : JValue) (key : String) : Option JValue :=
  match v with
  | .obj fields => (fields.find? (fun kv => kv.1 == key)).map (fun kv => kv.2)
  | _ => none

/-- Model of serde_json's parse_index for pointer tokens: a plain
decimal index, rejecting a leading plus and leading zeros. -/
def parseIndex? (tok : String) : Option Nat :=
  match tok.data with
  | [] => none
  | c :: rest =>
    if c == '+' then none
    else if c == '0' ∧ rest ≠ [] then none
    else if (c :: rest).all Char.isDigit then some (digitsToNat (c :: rest))
    else none

/-- One navigation step of Value::pointer. -/
def pointerStep (target : JValue) (tok : String) : Option JValue :=
  match target with
  | .obj fields => (fields.find? (fun kv => kv.1 == tok)).map (fun kv => kv.2)
  | .arr xs => (parseIndex? tok).bind (fun i => xs.get? i)
  | _ => none

/-- Model of Value::pointer: empty pointer returns the value itself,
otherwise a slash-separated path with tilde unescaping, walked through
objects and arrays. -/
def JValue.pointer (v : JValue) (p : String) : Option JValue :=
  if p == "" then some v
  else if !(strStartsWith p "/") then none
  else
    let tokens := (splitOnStr (strDrop p 1) "/").map
      (fun t => strReplace (strReplace t "~1" "/") "~0" "~")
    tokens.foldlM pointerStep v

/-! ## Time interpreter (src/time.rs)

Instants are Unix times in whole seconds (Int).  The external chrono
and humantime crates are modelled by executable functions faithful to
the behaviour the engine relies on: RFC3339 parsing of the canonical
date-time shape, the epoch-seconds constructor with its range check,
and single-component human-readable durations.  Sub-second precision,
leap seconds and multi-component durations are outside the model.
-/

/-- Consume one expected character. -/
def expectChar (c : Char) : List Char → Option (List Char)
  | x :: rest => if x == c then some rest else none
  | [] => none

/-- Consume exactly two digits. -/
def twoDigits? : List Char → Option (Nat × List Char)
  | a :: b :: rest =>
    if a.isDigit ∧ b.isDigit then some ((a.toNat - 48) * 10 + (b.toNat - 48), rest)
    else none
  | _ => none

/-- Gregorian leap year. -/
def isLeapYear (y : Int) : Bool :=
  (y % 4 == 0 && y % 100 != 0) || y % 400 == 0

/-- Days in a month of the proleptic Gregorian calendar. -/
def daysInMonth (y : Int) (m : Nat) : Nat :=
  if m = 1 ∨ m = 3 ∨ m = 5 ∨ m = 7 ∨ m = 8 ∨ m = 10 ∨ m = 12 then 31
  else if m = 4 ∨ m = 6 ∨ m = 9 ∨ m = 11 then 30
  else if isLeapYear y then 29 else 28

/-- Days since 1970-01-01 of a Gregorian date (civil-from-days
inverse, Hinnant's algorithm with flooring division). -/
def daysFromCivil (y : Int) (m d : Nat) : Int :=
  let yAdj : Int := if m ≤ 2 then y - 1 else y
  let era : Int := Int.fdiv yAdj 400
  let yoe : Int := yAdj - era * 400
  let mp : Int := (m : Int) + (if 2 < m then -3 else 9)
  let doy : Int := Int.fdiv (153 * mp + 2) 5 + (d : Int) - 1
  let doe : Int := yoe * 365 + Int.fdiv yoe 4 - Int.fdiv yoe 100 + doy
  era * 146097 + doe - 719468

/-- Strip an optional fractional-seconds part .digits, truncating it. -/
def stripFrac : List Char → Option (List Char)
  | '.' :: rest =>
    if digitLeads rest then some (rest.dropWhile Char.isDigit) else none
  | cs => some cs

/-- Parse the trailing UTC offset of an RFC3339 timestamp, returning
its value in seconds; the offset must end the string. -/
def parseOffset : List Char → Option Int
  | ['Z'] => some 0
  | ['z'] => some 0
  | c :: rest =>
    if c == '+' ∨ c == '-' then
      match twoDigits? rest with
      | some (oh, r1) =>
        match r1 with
        | ':' :: r2 =>
          match twoDigits? r2 with
          | some (om, []) =>
            if oh ≤ 23 ∧ om ≤ 59 then
              some ((if c == '-' then -1 else 1) * ((oh : Int) * 3600 + (om : Int) * 60))
            else none
          | _ => none
        | _ => none
      | none => none
    else none
  | [] => none

/-- Parse the year-month-day prefix of an RFC3339 timestamp. -/
def parseDatePart (cs : List Char) : Option (Int × Nat × Nat × List Char) :=
  let yd := cs.takeWhile Char.isDigit
  if yd.length = 4 then
    match expectChar '-' (cs.drop 4) with
    | none => none
    | some r0 =>
      match twoDigits? r0 with
      | none => none
      | some (mo, r1) =>
        match expectChar '-' r1 with
        | none => none
        | some r2 =>
          match twoDigits? r2 with
          | none => none
          | some (d, r3) => some ((digitsToNat yd : Int), mo, d, r3)
  else none

/-- Parse the hour:minute:second part of an RFC3339 timestamp. -/
def parseTimePart (cs : List Char) : Option (Nat × Nat × Nat × List Char) :=
  match twoDigits? cs with
  | none => none
  | some (h, r5) =>
    match expectChar ':' r5 with
    | none => none
    | some r6 =>
      match twoDigits? r6 with
      | none => none
      | some (mi, r7) =>
        match expectChar ':' r7 with
        | none => none
        | some r8 =>
          match twoDigits? r8 with
          | none => none
          | some (sec, r9) => some (h, mi, sec, r9)

/-- Model of chrono DateTime::parse_from_rfc3339 composed with the
conversion to UTC epoch seconds: accepts
year-month-dayThour:minute:second with optional fractional seconds and
a Z or numeric offset, validating the calendar fields. -/
def parseRfc3339 (s : String) : Option Int :=
  match parseDatePart s.data with
  | none => none
  | some (y, mo, d, r3) =>
    match r3 with
    | sep :: r4 =>
      if sep == 'T' || sep == 't' then
        match parseTimePart r4 with
        | none => none
        | some (h, mi, sec, r9) =>
          match stripFrac r9 with
          | none => none
          | some r10 =>
            match parseOffset r10 with
            | none => none
            | some off =>
              if 1 ≤ mo ∧ mo ≤ 12 ∧ 1 ≤ d ∧ d ≤ daysInMonth y mo ∧ h ≤ 23 ∧ mi ≤ 59 ∧ sec ≤ 59 then
                some (daysFromCivil y mo d * 86400 + (h : Int) * 3600 + (mi : Int) * 60 + (sec : Int) - off)
              else none
      else none
    | [] => none

/-- Model of chrono Utc.timestamp_opt(secs, 0).single(): epoch seconds
within the representable chrono range (bounds approximate chrono's
year minus-262144 to 262142 span). -/
def timestampOpt (i : Int) : Option Int :=
  if -8334632851200 ≤ i ∧ i ≤ 8210266876799 then some i else none

/-- Seconds denoted by a humantime unit spelling. -/
def durationUnitSecs (u : String) : Option Int :=
  if u == "s" || u == "sec" || u == "secs" || u == "second" || u == "seconds" then some 1
  else if u == "m" || u == "min" || u == "mins" || u == "minute" || u == "minutes" then some 60
  else if u == "h" || u == "hr" || u == "hours" || u == "hour" then some 3600
  else if u == "d" || u == "day" || u == "days" then some 86400
  else none

/-- Model of humantime::parse_duration restricted to one
quantity-plus-unit component at seconds granularity (the shape of the
relative time expressions in the query grammar). -/
def parseDuration? (s : String) : Option Int :=
  let ds := s.data.takeWhile Char.isDigit
  let rest := s.data.dropWhile Char.isDigit
  if ds = [] then none
  else (durationUnitSecs (String.mk rest)).map (fun m => (digitsToNat ds : Int) * m)

/-- Model of parse_time_string (src/time.rs): the literal now
(case-insensitive), else a relative duration with an optional trailing
" ago" suffix subtracted from the current instant, else an RFC3339
absolute timestamp, else a descriptive error. -/
def parseTimeString (now : Int) (timeStr : String) : Except String Int :=
  if lower timeStr == "now" then .ok now
  else
    let clean := if strEndsWith timeStr " ago" then strDropRight timeStr 4 else timeStr
    match parseDuration? clean with
    | some d => .ok (now - d)
    | none =>
      match parseRfc3339 timeStr with
      | some t => .ok t
      | none => .error ("Could not parse time string: " ++ timeStr)

/-- The timestamp keys probed by extract_and_parse_timestamp. -/
def COMMON_KEYS : List String := ["timestamp", "ts", "@timestamp"]

/-- Interpretation of one candidate timestamp value: an RFC3339 string,
else an integer of Unix epoch seconds. -/
def tryTimestampValue (tv : JValue) : Option Int :=
  match tv.asStr with
  | some s => parseRfc3339 s
  | none =>
    match tv.asI64 with
    | some i => timestampOpt i
    | none => none

/-- Model of extract_and_parse_timestamp (src/time.rs): probe the
common keys in order and return the first value that interprets as a
timestamp; a present key whose value fails to interpret is skipped and
the loop continues with the next key. -/
def extractAndParseTimestamp (v : JValue) : Option Int :=
  COMMON_KEYS.findSome? (fun key => (v.get key).bind tryTimestampValue)

/-! ## Query engine (src/query.rs) -/

/-- Model of QueryError: the single invalid-format error kind.  The
carried message follows the source messages with quote characters
omitted. -/
inductive QueryError
  | invalidFormat (msg : String)
deriving DecidableEq

/-- Result of an evaluation.  The panicked constructor marks the
unreachable arm of the source (the only potential panic site); the
safety theorem shows it is never produced. -/
inductive EvalResult
  | ok (b : Bool)
  | err (e : QueryError)
  | panicked
deriving DecidableEq

/-- Model of Result::map on the boolean payload, as used for the
negated range operators. -/
def EvalResult.mapB (f : Bool → Bool) : EvalResult → EvalResult
  | .ok b => .ok (f b)
  | r => r

/-- The fixed operator table of the engine, in its priority order
(longer spellings before spellings that are their substrings). -/
def OPERATORS : List String :=
  ["!contains+", "!contains-",
   "!between",
   "!~=", "!contains", "!exists", "isnot", ">=", "<=", "==", "!=",
   "contains+", "contains-",
   "between",
   "contains", "exists",
   "is", "~=", ">", "<"]

/-- The timestamp pseudo-field keys of the query module. -/
def TIMESTAMP_KEYS : List String := ["timestamp", "ts", "@timestamp"]

/-- Model of get_value_by_field: pointer-path lookup for a
slash-prefixed selector, plain key lookup otherwise. -/
def getValueByField (v : JValue) (fieldKey : String) : Option JValue :=
  if strStartsWith fieldKey "/" then v.pointer fieldKey else v.get fieldKey

/-- Rendering of a float value, modelling the serde_json Number
display of the shortest terminating decimal. -/
def floatToString (q : Rat) : String :=
  match (List.range 19).find? (fun k => pow10 k % q.den = 0) with
  | some k =>
    if k = 0 then toString q.num ++ ".0"
    else
      let scaled : Int := q.num * Int.fdiv (pow10 k : Int) (q.den : Int)
      let digits := toString scaled.natAbs
      let digits :=
        if digits.length ≤ k then String.mk (List.replicate (k + 1 - digits.length) '0') ++ digits
        else digits
      let sgn := if q.num < 0 then "-" else ""
      sgn ++ strDropRight digits k ++ "." ++ String.mk (digits.data.drop (digits.data.length - k))
  | none => toString q.num ++ "/" ++ toString q.den

/-- Canonical string form of a number, as Number::to_string. -/
def numToString : JNum → String
  | .int i => toString i
  | .float q => floatToString q

/-- Model of compare_values: trim and unquote the operand; numeric
comparison when the value is a number and the operand parses as a
float; otherwise coerce string, number or bool to text and compare
byte-wise, optionally lowercased; other kinds are incomparable. -/
def compareValues (logValue : JValue) (queryRaw : String) (caseInsensitive : Bool) :
    Option Ordering :=
  match logValue.asF64, parseF64? (trimQuotes (strTrim queryRaw)) with
  | some ln, some qn =>
    some (if ln < qn then Ordering.lt else if qn < ln then Ordering.gt else Ordering.eq)
  | _, _ =>
    match (match logValue with
           | .str s => some s
           | .num n => some (numToString n)
           | .bool b => some (if b then "true" else "false")
           | _ => none : Option String) with
    | none => none
    | some ls =>
      if caseInsensitive then
        some (compareStr (lower ls) (lower (trimQuotes (strTrim queryRaw))))
      else some (compareStr ls (trimQuotes (strTrim queryRaw)))

/-- Model of compare_time_values: extract the log timestamp, parse the
trimmed and unquoted operand as a time, and compare; none when either
side cannot be obtained. -/
def compareTimeValues (logEntry : JValue) (now : Int) (queryRaw : String) : Option Ordering :=
  match extractAndParseTimestamp logEntry with
  | none => none
  | some logTime =>
    match parseTimeString now (trimQuotes (strTrim queryRaw)) with
    | .error _ => none
    | .ok qt =>
      some (if logTime < qt then Ordering.lt else if qt < logTime then Ordering.gt else Ordering.eq)

/-- Model of evaluate_between: split the operand at the double dot,
trim and unquote both bounds; timestamp mode extracts the log
timestamp (false when absent) and parses both bounds as times with
auto-swap; numeric mode parses both bounds as numbers with auto-swap,
falling back to a lexicographic string test in the given bound order
when the value is not numeric. -/
def evaluateBetween (logValue : JValue) (now : Int) (rangeStr : String) (isTimestamp : Bool) :
    EvalResult :=
  match splitOnStr rangeStr ".." with
  | [p0, p1] =>
    if isTimestamp then
      match extractAndParseTimestamp logValue with
      | none => .ok false
      | some logTime =>
        match parseTimeString now (trimQuotes (strTrim p0)) with
        | .error _ => .err (.invalidFormat ("Invalid start time: " ++ trimQuotes (strTrim p0)))
        | .ok t1 =>
          match parseTimeString now (trimQuotes (strTrim p1)) with
          | .error _ => .err (.invalidFormat ("Invalid end time: " ++ trimQuotes (strTrim p1)))
          | .ok t2 =>
            .ok (decide ((if t1 < t2 then t1 else t2) ≤ logTime) &&
                 decide (logTime ≤ (if t1 < t2 then t2 else t1)))
    else
      match logValue.asF64 with
      | some logNum =>
        match parseF64? (trimQuotes (strTrim p0)) with
        | none => .err (.invalidFormat ("Invalid start number: " ++ trimQuotes (strTrim p0)))
        | some n1 =>
          match parseF64? (trimQuotes (strTrim p1)) with
          | none => .err (.invalidFormat ("Invalid end number: " ++ trimQuotes (strTrim p1)))
          | some n2 =>
            .ok (decide ((if n1 < n2 then n1 else n2) ≤ logNum) &&
                 decide (logNum ≤ (if n1 < n2 then n2 else n1)))
      | none =>
        match logValue.asStr with
        | some logS =>
          .ok (!(compareStr logS (trimQuotes (strTrim p0)) == Ordering.lt) &&
               !(compareStr logS (trimQuotes (strTrim p1)) == Ordering.gt))
        | none => .ok false
  | _ =>
    .err (.invalidFormat ("BETWEEN operator requires a range start..end. Got: " ++ rangeStr))

/-- Model of the text pseudo-field branch of evaluate_single_condition:
multi-term containment search on the raw line, numeric range search
over the numbers embedded in the raw line, and the four numeric
threshold operators; the final inner arm models the unreachable macro
of the source. -/
def evalTextCondition (rawLine : String) (op : String) (operand : String) : EvalResult :=
  if op == "contains" || op == "!contains" then
    if ((splitOnStr operand ",").map
        (fun s => lower (trimQuotes (strTrim s)))).filter (fun s => s ≠ "") = [] then .ok true
    else if op == "contains" then
      .ok ((((splitOnStr operand ",").map
          (fun s => lower (trimQuotes (strTrim s)))).filter (fun s => s ≠ "")).all
        (fun t => containsSub (lower rawLine) t))
    else
      .ok ((((splitOnStr operand ",").map
          (fun s => lower (trimQuotes (strTrim s)))).filter (fun s => s ≠ "")).all
        (fun t => !containsSub (lower rawLine) t))
  else if op == "between" || op == "!between" then
    match splitOnStr operand ".." with
    | [p0, p1] =>
      match parseF64? (trimQuotes (strTrim p0)) with
      | none => .err (.invalidFormat ("Invalid start number: " ++ trimQuotes (strTrim p0)))
      | some n1 =>
        match parseF64? (trimQuotes (strTrim p1)) with
        | none => .err (.invalidFormat ("Invalid end number: " ++ trimQuotes (strTrim p1)))
        | some n2 =>
          if op == "between" then
            .ok ((extractNumbers rawLine).any
              (fun n => decide ((if n1 < n2 then n1 else n2) ≤ n) &&
                        decide (n ≤ (if n1 < n2 then n2 else n1))))
          else
            .ok (!((extractNumbers rawLine).any
              (fun n => decide ((if n1 < n2 then n1 else n2) ≤ n) &&
                        decide (n ≤ (if n1 < n2 then n2 else n1)))))
    | _ =>
      .err (.invalidFormat ("Operator " ++ op ++ " requires a range start..end. Got: " ++ operand))
  else if op == "contains+" || op == "!contains+" || op == "contains-" || op == "!contains-" then
    match parseF64? (trimQuotes (strTrim operand)) with
    | none =>
      .err (.invalidFormat ("Operator " ++ op ++ " requires a numeric value, but got " ++ operand))
    | some queryNum =>
      if op == "contains+" then .ok ((extractNumbers rawLine).any (fun n => decide (queryNum ≤ n)))
      else if op == "!contains+" then
        .ok ((extractNumbers rawLine).all (fun n => decide (n < queryNum)))
      else if op == "contains-" then
        .ok ((extractNumbers rawLine).any (fun n => decide (n ≤ queryNum)))
      else if op == "!contains-" then
        .ok ((extractNumbers rawLine).all (fun n => decide (queryNum < n)))
      else .panicked
  else
    .err (.invalidFormat "The text field only supports contains and between variations.")

/-- Model of the num() wrapper detection on the field part: strip the
wrapper and record that numeric forcing is requested. -/
def parseNumWrapper (fieldRaw : String) : String × Bool :=
  if strStartsWith fieldRaw "num(" && strEndsWith fieldRaw ")" then
    (strTrim (strDropRight (strDrop fieldRaw 4) 1), true)
  else (fieldRaw, false)

/-- Model of the num(field) conversion of the resolved value: keep a
number, parse a string as a finite float, fail (none) on anything
else. -/
def numForced (force : Bool) (originalValue : JValue) : Option JValue :=
  if force then
    match originalValue.asF64 with
    | some _ => some originalValue
    | none =>
      match originalValue.asStr with
      | some s =>
        match parseF64? s with
        | some q => some (.num (.float q))
        | none => none
      | none => none
  else some originalValue

/-- Model of the operator dispatch on a present ordinary field with
its (possibly num-forced) value prepared. -/
def evalFieldOps (now : Int) (logValue : JValue) (op : String) (operand : String) : EvalResult :=
  if op == "between" then evaluateBetween logValue now operand false
  else if op == "!between" then (evaluateBetween logValue now operand false).mapB (fun b => !b)
  else if op == "~=" then .ok (compareValues logValue operand true == some Ordering.eq)
  else if op == "!~=" then .ok (!(compareValues logValue operand true == some Ordering.eq))
  else if op == "contains" then
    match logValue with
    | .str s => .ok (containsSub s (trimQuotes (strTrim operand)))
    | _ => .ok false
  else if op == "!contains" then
    match logValue with
    | .str s => .ok (!containsSub s (trimQuotes (strTrim operand)))
    | _ => .ok true
  else if op == "==" || op == "is" then
    .ok (compareValues logValue operand false == some Ordering.eq)
  else if op == "!=" || op == "isnot" then
    .ok (!(compareValues logValue operand false == some Ordering.eq))
  else if op == ">" then .ok (compareValues logValue operand false == some Ordering.gt)
  else if op == "<" then .ok (compareValues logValue operand false == some Ordering.lt)
  else if op == ">=" then
    .ok (match compareValues logValue operand false with
         | some ord => !(ord == Ordering.lt)
         | none => false)
  else if op == "<=" then
    .ok (match compareValues logValue operand false with
         | some ord => !(ord == Ordering.gt)
         | none => false)
  else .ok false

/-- Core of evaluate_single_condition once the field part has been
split into the stripped field name and the numeric-forcing flag:
timestamp range and ordering dispatch, text pseudo-field dispatch,
then ordinary field resolution. -/
def evalCondCore (v : JValue) (rawLine : String) (now : Int) (field : String)
    (forceNumeric : Bool) (op : String) (operand : String) : EvalResult :=
  if TIMESTAMP_KEYS.contains field && op == "between" then
    evaluateBetween v now operand true
  else if TIMESTAMP_KEYS.contains field && op == "!between" then
    (evaluateBetween v now operand true).mapB (fun b => !b)
  else if TIMESTAMP_KEYS.contains field then
    match compareTimeValues v now operand with
    | some ord =>
      if op == ">" then .ok (ord == Ordering.gt)
      else if op == "<" then .ok (ord == Ordering.lt)
      else if op == ">=" then .ok (!(ord == Ordering.lt))
      else if op == "<=" then .ok (!(ord == Ordering.gt))
      else .err (.invalidFormat "Timestamp fields only support >, <, >=, <=, between operators.")
    | none => .ok false
  else if field == "text" then
    evalTextCondition rawLine op operand
  else
    match getValueByField v field with
    | some originalValue =>
      match numForced forceNumeric originalValue with
      | some logValue => evalFieldOps now logValue op operand
      | none => .ok false
    | none => .ok (op == "!=" || op == "isnot")

/-- Dispatch of a condition already split at the operator into a raw
field part and an operand: first parse the num() wrapper. -/
def evalParsedCondition (v : JValue) (rawLine : String) (now : Int) (fieldRaw : String)
    (op : String) (operand : String) : EvalResult :=
  evalCondCore v rawLine now (parseNumWrapper fieldRaw).1 (parseNumWrapper fieldRaw).2 op operand

/-- Operator identification: the first entry of the priority-ordered
table occurring as a substring of the condition text. -/
def selectedOp (condition : String) : Option String :=
  OPERATORS.find? (fun op => containsSub condition op)

/-- Model of evaluate_single_condition: identify the operator, handle
the existence operators on the trimmed field part, otherwise split the
condition at the first operator occurrence and dispatch; no identified
operator is an invalid-format error.  The error arm after the split
models the parts-too-short branch of the source, which the safety
theorem shows is dead. -/
def evaluateSingleCondition (v : JValue) (rawLine : String) (now : Int) (condition : String) :
    EvalResult :=
  match selectedOp condition with
  | none => .err (.invalidFormat condition)
  | some op =>
    if op == "exists" || op == "!exists" then
      let fieldPart := strTrim ((splitFirstStr condition op).elim condition Prod.fst)
      let field := (parseNumWrapper fieldPart).1
      let fieldExists := (getValueByField v field).isSome
      if op == "exists" then .ok fieldExists else .ok (!fieldExists)
    else
      match splitFirstStr condition op with
      | none => .err (.invalidFormat condition)
      | some (pre, post) => evalParsedCondition v rawLine now (strTrim pre) op (strTrim post)

/-- Continuation of an AND fold after one condition: a true condition
continues, a false condition short-circuits the clause, an error (or
the panic marker) aborts, as the conjunction loop with the question
mark operator does in the source. -/
def EvalResult.andThen (r : EvalResult) (next : Unit → EvalResult) : EvalResult :=
  match r with
  | .ok true => next ()
  | .ok false => .ok false
  | .err e => .err e
  | .panicked => .panicked

/-- Continuation of an OR fold after one clause: a matching clause
short-circuits the query, a failing clause continues, an error (or the
panic marker) aborts. -/
def EvalResult.orElse (r : EvalResult) (next : Unit → EvalResult) : EvalResult :=
  match r with
  | .ok true => .ok true
  | .ok false => next ()
  | .err e => .err e
  | .panicked => .panicked

/-- AND fold over the trimmed conditions of one clause: blank
conditions are skipped. -/
def evalCondList (v : JValue) (rawLine : String) (now : Int) : List String → EvalResult
  | [] => .ok true
  | c :: rest =>
    if c == "" then evalCondList v rawLine now rest
    else (evaluateSingleCondition v rawLine now c).andThen (fun _ => evalCondList v rawLine now rest)

/-- Model of evaluate_and_clause. -/
def evaluateAndClause (v : JValue) (rawLine : String) (now : Int) (clause : String) : EvalResult :=
  evalCondList v rawLine now ((splitOnStr clause "&&").map strTrim)

/-- OR fold over the trimmed clauses of the query: blank clauses are
skipped. -/
def evalClauseList (v : JValue) (rawLine : String) (now : Int) : List String → EvalResult
  | [] => .ok false
  | c :: rest =>
    if c == "" then evalClauseList v rawLine now rest
    else (evaluateAndClause v rawLine now c).orElse (fun _ => evalClauseList v rawLine now rest)

/-- Normalisation of the word separators OR and AND (exact case
variants) into the symbolic separators. -/
def normalizeQuery (q : String) : String :=
  strReplace (strReplace (strReplace (strReplace q " OR " "||") " or " "||") " AND " "&&") " and " "&&"

/-- The trimmed OR clauses of a query. -/
def orClausesOf (q : String) : List String :=
  (splitOnStr (normalizeQuery q) "||").map strTrim

/-- Model of evaluate (src/query.rs): a blank query always matches, a
query containing no operator spelling is a case-insensitive substring
test on the raw line with optional leading-bang negation, otherwise
the normalised OR-of-AND clause structure is folded. -/
def evaluate (v : JValue) (rawLine : String) (now : Int) (query : String) : EvalResult :=
  if strTrim query == "" then .ok true
  else if OPERATORS.any (fun op => containsSub query op) then
    evalClauseList v rawLine now (orClausesOf query)
  else
    let negate := strStartsWith query "!"
    let effectiveQuery := if negate then strDrop query 1 else query
    let found := containsSub (lower rawLine) (lower effectiveQuery)
    .ok (if negate then !found else found)

/-- Two evaluation results that are exact boolean complements, or
that are both errors. -/
def complementary (r1 r2 : EvalResult) : Prop :=
  (∃ b, r1 = .ok b ∧ r2 = .ok (!b)) ∨ (∃ e1 e2, r1 = .err e1 ∧ r2 = .err e2)

/-- Two evaluation results with the same boolean outcome, or that are
both errors. -/
def sameOutcome (r1 r2 : EvalResult) : Prop :=
  (∃ b, r1 = .ok b ∧ r2 = .ok b) ∨ (∃ e1 e2, r1 = .err e1 ∧ r2 = .err e2)

/-! ## Shared rewriting lemmas -/

@[simp] theorem andThen_ok_true (f : Unit → EvalResult) :
    (EvalResult.ok true).andThen f = f () := rfl

@[simp] theorem andThen_ok_false (f : Unit → EvalResult) :
    (EvalResult.ok false).andThen f = .ok false := rfl

@[simp] theorem andThen_err (e : QueryError) (f : Unit → EvalResult) :
    (EvalResult.err e).andThen f = .err e := rfl

@[simp] theorem orElse_ok_true (f : Unit → EvalResult) :
    (EvalResult.ok true).orElse f = .ok true := rfl

@[simp] theorem orElse_ok_false (f : Unit → EvalResult) :
    (EvalResult.ok false).orElse f = f () := rfl

@[simp] theorem orElse_err (e : QueryError) (f : Unit → EvalResult) :
    (EvalResult.err e).orElse f = .err e := rfl

@[simp] theorem mapB_ok (f : Bool → Bool) (b : Bool) :
    (EvalResult.ok b).mapB f = .ok (f b) := rfl

@[simp] theorem mapB_err (f : Bool → Bool) (e : QueryError) :
    (EvalResult.err e).mapB f = .err e := rfl

theorem beq_false_of_ne {α : Type} [BEq α] [LawfulBEq α] {a b : α} (h : a ≠ b) :
    (a == b) = false := by
  cases hab : a == b with
  | false => rfl
  | true => exact absurd (eq_of_beq hab) h

/-- Evaluation of a structured non-blank query is the OR fold over its
normalised clauses. -/
theorem evaluate_structured (v : JValue) (raw : String) (now : Int) (q : String)
    (hq : strTrim q ≠ "")
    (hstruct : (OPERATORS.any (fun op => containsSub q op)) = true) :
    evaluate v raw now q = evalClauseList v raw now (orClausesOf q) := by
  unfold evaluate
  rw [beq_false_of_ne hq, hstruct]
  rfl

/-- Reduction of the dispatch for a timestamp field with the between
operator. -/
theorem evalParsed_ts_between (v : JValue) (raw : String) (now : Int)
    (fieldRaw operand : String)
    (hts : TIMESTAMP_KEYS.contains (parseNumWrapper fieldRaw).1 = true) :
    evalParsedCondition v raw now fieldRaw "between" operand =
      evaluateBetween v now operand true := by
  unfold evalParsedCondition evalCondCore
  rw [hts]
  rfl

/-- Reduction of the dispatch for a timestamp field with the negated
between operator. -/
theorem evalParsed_ts_nbetween (v : JValue) (raw : String) (now : Int)
    (fieldRaw operand : String)
    (hts : TIMESTAMP_KEYS.contains (parseNumWrapper fieldRaw).1 = true) :
    evalParsedCondition v raw now fieldRaw "!between" operand =
      (evaluateBetween v now operand true).mapB (fun b => !b) := by
  unfold evalParsedCondition evalCondCore
  rw [hts]
  rfl

/-- Reduction of the dispatch for a timestamp field with an operator
other than the two range operators. -/
theorem evalParsed_ts_other (v : JValue) (raw : String) (now : Int)
    (fieldRaw op operand : String)
    (hts : TIMESTAMP_KEYS.contains (parseNumWrapper fieldRaw).1 = true)
    (hb1 : op ≠ "between") (hb2 : op ≠ "!between") :
    evalParsedCondition v raw now fieldRaw op operand =
      (match compareTimeValues v now operand with
       | some ord =>
         if op == ">" then .ok (ord == Ordering.gt)
         else if op == "<" then .ok (ord == Ordering.lt)
         else if op == ">=" then .ok (!(ord == Ordering.lt))
         else if op == "<=" then .ok (!(ord == Ordering.gt))
         else .err (.invalidFormat "Timestamp fields only support >, <, >=, <=, between operators.")
       | none => .ok false) := by
  unfold evalParsedCondition evalCondCore
  rw [hts, beq_false_of_ne hb1, beq_false_of_ne hb2]
  rfl

/-- Reduction of the dispatch for the text pseudo-field. -/
theorem evalParsed_text (v : JValue) (raw : String) (now : Int)
    (fieldRaw op operand : String)
    (htext : (parseNumWrapper fieldRaw).1 = "text") :
    evalParsedCondition v raw now fieldRaw op operand = evalTextCondition raw op operand := by
  have hts : TIMESTAMP_KEYS.contains (parseNumWrapper fieldRaw).1 = false := by
    rw [htext]; decide
  unfold evalParsedCondition evalCondCore
  rw [hts, htext]
  rfl

/-- Reduction of the dispatch for a present ordinary field whose
num() conversion succeeds. -/
theorem evalParsed_plain (v : JValue) (raw : String) (now : Int)
    (fieldRaw op operand : String) (orig logValue : JValue)
    (hts : TIMESTAMP_KEYS.contains (parseNumWrapper fieldRaw).1 = false)
    (htext : (parseNumWrapper fieldRaw).1 ≠ "text")
    (hget : getValueByField v (parseNumWrapper fieldRaw).1 = some orig)
    (hnf : numForced (parseNumWrapper fieldRaw).2 orig = some logValue) :
    evalParsedCondition v raw now fieldRaw op operand = evalFieldOps now logValue op operand := by
  have h1 : evalParsedCondition v raw now fieldRaw op operand =
      (match numForced (parseNumWrapper fieldRaw).2 orig with
       | some lv => evalFieldOps now lv op operand
       | none => EvalResult.ok false) := by
    unfold evalParsedCondition evalCondCore
    rw [hts, beq_false_of_ne htext, hget]
    rfl
  rw [h1, hnf]

/-- Reduction of the dispatch for a present ordinary field whose
num() conversion fails. -/
theorem evalParsed_plain_forced_fail (v : JValue) (raw : String) (now : Int)
    (fieldRaw op operand : String) (orig : JValue)
    (hts : TIMESTAMP_KEYS.contains (parseNumWrapper fieldRaw).1 = false)
    (htext : (parseNumWrapper fieldRaw).1 ≠ "text")
    (hget : getValueByField v (parseNumWrapper fieldRaw).1 = some orig)
    (hnf : numForced (parseNumWrapper fieldRaw).2 orig = none) :
    evalParsedCondition v raw now fieldRaw op operand = .ok false := by
  have h1 : evalParsedCondition v raw now fieldRaw op operand =
      (match numForced (parseNumWrapper fieldRaw).2 orig with
       | some lv => evalFieldOps now lv op operand
       | none => EvalResult.ok false) := by
    unfold evalParsedCondition evalCondCore
    rw [hts, beq_false_of_ne htext, hget]
    rfl
  rw [h1, hnf]

/-- Reduction of the dispatch for an absent ordinary field. -/
theorem evalParsed_absent (v : JValue) (raw : String) (now : Int)
    (fieldRaw op operand : String)
    (hts : TIMESTAMP_KEYS.contains (parseNumWrapper fieldRaw).1 = false)
    (htext : (parseNumWrapper fieldRaw).1 ≠ "text")
    (hget : getValueByField v (parseNumWrapper fieldRaw).1 = none) :
    evalParsedCondition v raw now fieldRaw op operand = .ok (op == "!=" || op == "isnot") := by
  unfold evalParsedCondition evalCondCore
  rw [hts, beq_false_of_ne htext, hget]
  rfl

/-! ## Absence of panics, branch by branch -/

theorem andThen_ne_panicked {r : EvalResult} {f : Unit → EvalResult}
    (hr : r ≠ .panicked) (hf : f () ≠ .panicked) : r.andThen f ≠ .panicked := by
  cases r with
  | ok b => cases b <;> simp [EvalResult.andThen, hf]
  | err e => simp [EvalResult.andThen]
  | panicked => exact absurd rfl hr

theorem orElse_ne_panicked {r : EvalResult} {f : Unit → EvalResult}
    (hr : r ≠ .panicked) (hf : f () ≠ .panicked) : r.orElse f ≠ .panicked := by
  cases r with
  | ok b => cases b <;> simp [EvalResult.orElse, hf]
  | err e => simp [EvalResult.orElse]
  | panicked => exact absurd rfl hr

theorem mapB_ne_panicked {r : EvalResult} {f : Bool → Bool}
    (hr : r ≠ .panicked) : r.mapB f ≠ .panicked := by
  cases r with
  | ok b => simp [EvalResult.mapB]
  | err e => simp [EvalResult.mapB]
  | panicked => exact absurd rfl hr

theorem evaluateBetween_ne_panicked (logValue : JValue) (now : Int)
    (rangeStr : String) (isTimestamp : Bool) :
    evaluateBetween logValue now rangeStr isTimestamp ≠ .panicked := by
  unfold evaluateBetween
  repeat' ((try dsimp only); split)
  all_goals simp

theorem evalTextCondition_ne_panicked (rawLine op operand : String) :
    evalTextCondition rawLine op operand ≠ .panicked := by
  unfold evalTextCondition
  repeat' ((try dsimp only); split)
  all_goals (try simp)
  all_goals simp_all

theorem ok_ne_panicked (b : Bool) : EvalResult.ok b ≠ .panicked := by simp

theorem err_ne_panicked (e : QueryError) : EvalResult.err e ≠ .panicked := by simp

theorem ite_ne_panicked {c : Prop} [Decidable c] {a b : EvalResult}
    (ha : a ≠ .panicked) (hb : b ≠ .panicked) : (if c then a else b) ≠ .panicked := by
  by_cases h : c
  · rwa [if_pos h]
  · rwa [if_neg h]

theorem evalFieldOps_ne_panicked (now : Int) (logValue : JValue) (op operand : String) :
    evalFieldOps now logValue op operand ≠ .panicked := by
  unfold evalFieldOps
  refine ite_ne_panicked (evaluateBetween_ne_panicked _ _ _ _) ?_
  refine ite_ne_panicked (mapB_ne_panicked (evaluateBetween_ne_panicked _ _ _ _)) ?_
  refine ite_ne_panicked (ok_ne_panicked _) ?_
  refine ite_ne_panicked (ok_ne_panicked _) ?_
  refine ite_ne_panicked ?_ ?_
  · cases logValue <;> simp
  refine ite_ne_panicked ?_ ?_
  · cases logValue <;> simp
  refine ite_ne_panicked (ok_ne_panicked _) ?_
  refine ite_ne_panicked (ok_ne_panicked _) ?_
  refine ite_ne_panicked (ok_ne_panicked _) ?_
  refine ite_ne_panicked (ok_ne_panicked _) ?_
  refine ite_ne_panicked (ok_ne_panicked _) ?_
  exact ite_ne_panicked (ok_ne_panicked _) (ok_ne_panicked _)

theorem evalCondCore_ne_panicked (v : JValue) (rawLine : String) (now : Int)
    (field : String) (forceNumeric : Bool) (op operand : String) :
    evalCondCore v rawLine now field forceNumeric op operand ≠ .panicked := by
  unfold evalCondCore
  repeat' ((try dsimp only); split)
  all_goals first
    | exact evaluateBetween_ne_panicked _ _ _ _
    | exact mapB_ne_panicked (evaluateBetween_ne_panicked _ _ _ _)
    | exact evalTextCondition_ne_panicked _ _ _
    | exact evalFieldOps_ne_panicked _ _ _ _
    | simp

theorem evaluateSingleCondition_ne_panicked (v : JValue) (rawLine : String) (now : Int)
    (condition : String) :
    evaluateSingleCondition v rawLine now condition ≠ .panicked := by
  unfold evaluateSingleCondition
  repeat' ((try dsimp only); split)
  all_goals first
    | exact evalCondCore_ne_panicked _ _ _ _ _ _ _
    | simp

theorem evalCondList_ne_panicked (v : JValue) (rawLine : String) (now : Int)
    (cs : List String) : evalCondList v rawLine now cs ≠ .panicked := by
  induction cs with
  | nil => simp [evalCondList]
  | cons c rest ih =>
    unfold evalCondList
    split
    · exact ih
    · exact andThen_ne_panicked (evaluateSingleCondition_ne_panicked _ _ _ _) ih

theorem evalClauseList_ne_panicked (v : JValue) (rawLine : String) (now : Int)
    (cs : List String) : evalClauseList v rawLine now cs ≠ .panicked := by
  induction cs with
  | nil => simp [evalClauseList]
  | cons c rest ih =>
    unfold evalClauseList
    split
    · exact ih
    · exact orElse_ne_panicked (evalCondList_ne_panicked _ _ _ _) ih

/-! ## Claims -/

/-- C7: operator identification scans the fixed operator table in its
priority order and selects the first spelling occurring as a substring
of the condition text; any condition containing the spelling
!contains+ (the first table entry) selects it, and in particular the
condition text code!contains+5 selects !contains+, never contains+. -/
theorem C7_operator_priority :
    (∀ cond : String, containsSub cond "!contains+" = true →
      selectedOp cond = some "!contains+") ∧
    selectedOp "code!contains+5" = some "!contains+" ∧
    selectedOp "code!contains+5" ≠ some "contains+" := by
  refine ⟨?_, rfl, by decide⟩
  intro cond h
  unfold selectedOp OPERATORS
  exact List.find?_cons_of_pos _ h

/-- C7 witness: the hypotheses of the universal part hold at the
concrete condition text of the claim. -/
theorem C7_operator_priority_witness :
    containsSub "code!contains+5" "!contains+" = true ∧
    selectedOp "code!contains+5" = some "!contains+" :=
  ⟨by decide, C7_operator_priority.1 "code!contains+5" (by decide)⟩

/-- C3 counterexample: the first probed key timestamp holds a value
that fails to parse, yet extraction falls through to the ts key and
succeeds, where the claim demands the result none. -/
theorem C3_counterexample :
    (JValue.obj [("timestamp", .str "garbage"), ("ts", .num (.int 1700000000))]).get "timestamp"
        = some (.str "garbage") ∧
    tryTimestampValue (.str "garbage") = none ∧
    extractAndParseTimestamp
        (JValue.obj [("timestamp", .str "garbage"), ("ts", .num (.int 1700000000))])
        = some 1700000000 :=
  ⟨rfl, rfl, rfl⟩

/-- C3 amended: extraction probes timestamp, ts, @timestamp in that
fixed order and the first successful interpretation wins; a present
key whose value fails to interpret is skipped and the remaining keys
are probed (fallback to later keys does occur). -/
theorem C3_amended (v : JValue) (x : JValue)
    (hget : v.get "timestamp" = some x) (htry : tryTimestampValue x = none) :
    extractAndParseTimestamp v =
      List.findSome? (fun key => (v.get key).bind tryTimestampValue) ["ts", "@timestamp"] := by
  unfold extractAndParseTimestamp COMMON_KEYS
  rw [List.findSome?_cons, hget]
  simp [htry]

/-- C3 amended witness: the fallback equation instantiated at the
counterexample value. -/
theorem C3_amended_witness :
    extractAndParseTimestamp
        (JValue.obj [("timestamp", .str "garbage"), ("ts", .num (.int 1700000000))]) =
      List.findSome? (fun key =>
        ((JValue.obj [("timestamp", .str "garbage"), ("ts", .num (.int 1700000000))]).get key).bind
          tryTimestampValue) ["ts", "@timestamp"] :=
  C3_amended _ _ rfl rfl

/-- C4 counterexample: the malformed query status>>5 does not produce
an invalid-format error; the operator scan resolves the first > and
the evaluation returns a boolean. -/
theorem C4_counterexample :
    evaluate JValue.null "" 0 "status>>5" = .ok false ∧
    selectedOp "status>>5" = some ">" :=
  ⟨rfl, rfl⟩

/-- C4 amended: the query status>>5 is parsed as field status,
operator >, operand >5; it never errors, returning a boolean for every
structured value, raw line and clock value. -/
theorem C4_amended (v : JValue) (raw : String) (now : Int) :
    evaluateSingleCondition v raw now "status>>5" =
      evalParsedCondition v raw now "status" ">" ">5" ∧
    ∃ b, evaluate v raw now "status>>5" = .ok b := by
  refine ⟨rfl, ?_⟩
  have hcore : ∃ b, evalParsedCondition v raw now "status" ">" ">5" = .ok b := by
    cases hget : getValueByField v "status" with
    | none =>
      exact ⟨false, evalParsed_absent v raw now "status" ">" ">5" (by decide) (by decide) hget⟩
    | some orig =>
      refine ⟨compareValues orig ">5" false == some Ordering.gt, ?_⟩
      rw [evalParsed_plain v raw now "status" ">" ">5" orig orig (by decide) (by decide) hget rfl]
      rfl
  obtain ⟨b, hb⟩ := hcore
  have h1 : evaluate v raw now "status>>5" =
      (evaluateAndClause v raw now "status>>5").orElse (fun _ => evalClauseList v raw now []) := rfl
  have h2 : evaluateAndClause v raw now "status>>5" =
      (evaluateSingleCondition v raw now "status>>5").andThen
        (fun _ => evalCondList v raw now []) := rfl
  have h3 : evaluateSingleCondition v raw now "status>>5" =
      evalParsedCondition v raw now "status" ">" ">5" := rfl
  refine ⟨b, ?_⟩
  rw [h1, h2, h3, hb]
  cases b <;> rfl

/-- C4 amended witness: the amended statement instantiated at a value
that carries a status field, where the boolean is even true. -/
theorem C4_amended_witness :
    evaluateSingleCondition (JValue.obj [("status", .str "active")]) "" 0 "status>>5" =
      evalParsedCondition (JValue.obj [("status", .str "active")]) "" 0 "status" ">" ">5" ∧
    ∃ b, evaluate (JValue.obj [("status", .str "active")]) "" 0 "status>>5" = .ok b :=
  C4_amended (JValue.obj [("status", .str "active")]) "" 0

/-- C6 counterexample: a whitespace-only query is non-empty and
contains no operator spelling, but evaluate returns true without
performing the substring search the claim demands (the raw line does
not contain the query text). -/
theorem C6_counterexample :
    " " ≠ "" ∧
    (OPERATORS.all (fun op => !containsSub " " op)) = true ∧
    evaluate JValue.null "x" 0 " " = .ok true ∧
    containsSub (lower "x") (lower " ") = false :=
  ⟨by decide, by decide, rfl, by decide⟩

/-- C6 amended: for every query that is non-blank after trimming and
contains none of the operator spellings, evaluate performs a
case-insensitive substring search of the query in the raw line,
negated when the query starts with a bang (which is stripped first);
the structured value is never consulted.  Whitespace-only queries
instead match unconditionally. -/
theorem C6_amended (v : JValue) (raw : String) (now : Int) (q : String)
    (hq : strTrim q ≠ "")
    (hops : ∀ op ∈ OPERATORS, containsSub q op = false) :
    evaluate v raw now q = .ok
      (if strStartsWith q "!" then !containsSub (lower raw) (lower (strDrop q 1))
       else containsSub (lower raw) (lower q)) := by
  have hany : (OPERATORS.any (fun op => containsSub q op)) = false := by
    rw [List.any_eq_false]
    intro op hop
    simp [hops op hop]
  unfold evaluate
  rw [beq_false_of_ne hq, hany]
  by_cases hneg : strStartsWith q "!" = true
  · simp only [hneg, if_true]
    rfl
  · simp only [Bool.not_eq_true] at hneg
    simp only [hneg]
    rfl

/-- C6 amended witness: a plain word query reduces to the substring
search on the raw line. -/
theorem C6_amended_witness :
    evaluate JValue.null "Connection ERROR now" 0 "error" = .ok
      (if strStartsWith "error" "!"
       then !containsSub (lower "Connection ERROR now") (lower (strDrop "error" 1))
       else containsSub (lower "Connection ERROR now") (lower "error")) :=
  C6_amended JValue.null "Connection ERROR now" 0 "error" (by decide) (by decide)

/-- C2 counterexample: a timestamp condition with the illegal operator
== evaluates to Ok(false), not an InvalidFormat error, when no
timestamp can be extracted from the value — the error branch is only
reachable after a successful comparison setup. -/
theorem C2_counterexample :
    evaluate (JValue.obj []) "" 0 "timestamp == now" = .ok false ∧
    extractAndParseTimestamp (JValue.obj []) = none :=
  ⟨rfl, rfl⟩

/-- C2 amended: for a timestamp field and a non-range operator, the
condition evaluates to Ok(false) whenever no timestamp can be
extracted from the value, and likewise whenever a timestamp is
extractable but the operand does not parse as a time (for legal and
illegal operators alike); the InvalidFormat error for an operator
outside the ordering set is raised exactly when a log timestamp is
extractable and the operand parses as a time. -/
theorem C2_amended (v : JValue) (raw : String) (now : Int)
    (fieldRaw op operand : String)
    (hts : TIMESTAMP_KEYS.contains (parseNumWrapper fieldRaw).1 = true)
    (hb1 : op ≠ "between") (hb2 : op ≠ "!between") :
    (extractAndParseTimestamp v = none →
      evalParsedCondition v raw now fieldRaw op operand = .ok false) ∧
    (∀ t msg, extractAndParseTimestamp v = some t →
      parseTimeString now (trimQuotes (strTrim operand)) = .error msg →
      evalParsedCondition v raw now fieldRaw op operand = .ok false) ∧
    (∀ t, extractAndParseTimestamp v = some t →
      (∃ q, parseTimeString now (trimQuotes (strTrim operand)) = .ok q) →
      op ≠ ">" → op ≠ "<" → op ≠ ">=" → op ≠ "<=" →
      evalParsedCondition v raw now fieldRaw op operand =
        .err (.invalidFormat "Timestamp fields only support >, <, >=, <=, between operators.")) := by
  rw [evalParsed_ts_other v raw now fieldRaw op operand hts hb1 hb2]
  refine ⟨?_, ?_, ?_⟩
  · intro hnone
    unfold compareTimeValues
    rw [hnone]
  · intro t msg hsome herr
    unfold compareTimeValues
    rw [hsome, herr]
  · intro t hsome hq h1 h2 h3 h4
    obtain ⟨q, hq⟩ := hq
    unfold compareTimeValues
    rw [hsome]
    simp only [hq]
    rw [beq_false_of_ne h1, beq_false_of_ne h2, beq_false_of_ne h3, beq_false_of_ne h4]
    rfl

/-- C2 amended witness: all three cases at concrete inputs — an empty
object gives Ok(false), an epoch ts field with the unparsable operand
garbage gives Ok(false), and an epoch ts field with the operand now
gives the InvalidFormat error. -/
theorem C2_amended_witness :
    evalParsedCondition (JValue.obj []) "" 0 "timestamp" "==" "now" = .ok false ∧
    evalParsedCondition (JValue.obj [("ts", .num (.int 100))]) "" 0 "ts" "==" "garbage"
      = .ok false ∧
    evalParsedCondition (JValue.obj [("ts", .num (.int 100))]) "" 0 "ts" "==" "now" =
      .err (.invalidFormat "Timestamp fields only support >, <, >=, <=, between operators.") :=
  ⟨(C2_amended (JValue.obj []) "" 0 "timestamp" "==" "now"
      (by decide) (by decide) (by decide)).1 rfl,
   (C2_amended (JValue.obj [("ts", .num (.int 100))]) "" 0 "ts" "==" "garbage"
      (by decide) (by decide) (by decide)).2.1 100
      "Could not parse time string: garbage" rfl rfl,
   (C2_amended (JValue.obj [("ts", .num (.int 100))]) "" 0 "ts" "==" "now"
      (by decide) (by decide) (by decide)).2.2 100 rfl ⟨0, rfl⟩
      (by decide) (by decide) (by decide) (by decide)⟩

/-- C8: on a field selector that resolves to no value (and is neither
a timestamp key nor the text pseudo-field), the operators != and isnot
evaluate to true and every other comparison operator evaluates to
false; no error is possible. -/
theorem C8_absent_field (v : JValue) (raw : String) (now : Int)
    (fieldRaw op operand : String)
    (hts : TIMESTAMP_KEYS.contains (parseNumWrapper fieldRaw).1 = false)
    (htext : (parseNumWrapper fieldRaw).1 ≠ "text")
    (habs : getValueByField v (parseNumWrapper fieldRaw).1 = none) :
    ((op = "!=" ∨ op = "isnot") →
      evalParsedCondition v raw now fieldRaw op operand = .ok true) ∧
    (op ∈ ["==", "is", ">", "<", ">=", "<=", "~=", "!~=",
           "contains", "!contains", "between", "!between"] →
      evalParsedCondition v raw now fieldRaw op operand = .ok false) := by
  rw [evalParsed_absent v raw now fieldRaw op operand hts htext habs]
  constructor
  · rintro (rfl | rfl) <;> rfl
  · intro hmem
    have : (op == "!=" || op == "isnot") = false := by
      fin_cases hmem <;> decide
    rw [this]

/-- C8 witness: an absent plain field on the null value with the
equality and inequality operators. -/
theorem C8_absent_field_witness :
    evalParsedCondition JValue.null "" 0 "x" "==" "1" = .ok false ∧
    evalParsedCondition JValue.null "" 0 "x" "!=" "1" = .ok true :=
  ⟨(C8_absent_field JValue.null "" 0 "x" "==" "1" (by decide) (by decide) rfl).2 (by decide),
   (C8_absent_field JValue.null "" 0 "x" "!=" "1" (by decide) (by decide) rfl).1 (Or.inl rfl)⟩

/-- Forcing keeps a value that is already numeric. -/
theorem numForced_of_num (orig : JValue) (n : Rat) (hn : orig.asF64 = some n) :
    numForced true orig = some orig := by
  simp only [numForced, hn, if_true]

/-- Forcing a string value parses it as a float. -/
theorem numForced_str (s : String) (q : Rat) (hq : parseF64? s = some q) :
    numForced true (JValue.str s) = some (.num (.float q)) := by
  simp only [numForced, JValue.asF64, JValue.asStr, hq, if_true]

/-- Forcing fails on every value that is neither numeric nor a
numeric string. -/
theorem numForced_fail (orig : JValue) (hF : orig.asF64 = none)
    (hS : ∀ s, orig.asStr = some s → parseF64? s = none) :
    numForced true orig = none := by
  rcases horig : orig.asStr with _ | s
  · simp [numForced, hF, horig]
  · simp [numForced, hF, horig, hS s horig]

/-- C9: with a num(field) wrapper and a comparison operator, a numeric
resolved value is compared as-is, a string value that parses as a
finite float is compared through the parsed number, and any other
value (non-numeric string, bool, array, object, null) makes the
condition evaluate to Ok(false) — never an error; in every case the
result is some Ok boolean. -/
theorem C9_num_wrapper (v : JValue) (raw : String) (now : Int)
    (fieldRaw field op operand : String) (orig : JValue)
    (hwrap : parseNumWrapper fieldRaw = (field, true))
    (hts : TIMESTAMP_KEYS.contains field = false)
    (htext : field ≠ "text")
    (hget : getValueByField v field = some orig)
    (hop : op ∈ ["==", "is", "!=", "isnot", ">", "<", ">=", "<=", "~=", "!~="]) :
    (∀ n, orig.asF64 = some n →
      evalParsedCondition v raw now fieldRaw op operand = evalFieldOps now orig op operand) ∧
    (∀ s q, orig = .str s → parseF64? s = some q →
      evalParsedCondition v raw now fieldRaw op operand =
        evalFieldOps now (.num (.float q)) op operand) ∧
    (orig.asF64 = none → (∀ s, orig.asStr = some s → parseF64? s = none) →
      evalParsedCondition v raw now fieldRaw op operand = .ok false) ∧
    (∃ b, evalParsedCondition v raw now fieldRaw op operand = .ok b) := by
  have hts2 : TIMESTAMP_KEYS.contains (parseNumWrapper fieldRaw).1 = false := by
    rw [hwrap]; exact hts
  have htext2 : (parseNumWrapper fieldRaw).1 ≠ "text" := by
    rw [hwrap]; exact htext
  have hget2 : getValueByField v (parseNumWrapper fieldRaw).1 = some orig := by
    rw [hwrap]; exact hget
  refine ⟨?_, ?_, ?_, ?_⟩
  · intro n hn
    have hnf : numForced (parseNumWrapper fieldRaw).2 orig = some orig := by
      rw [hwrap]; exact numForced_of_num orig n hn
    exact evalParsed_plain v raw now fieldRaw op operand orig orig hts2 htext2 hget2 hnf
  · intro s q hs hq
    subst hs
    have hnf : numForced (parseNumWrapper fieldRaw).2 (JValue.str s) =
        some (.num (.float q)) := by
      rw [hwrap]; exact numForced_str s q hq
    exact evalParsed_plain v raw now fieldRaw op operand (JValue.str s) (.num (.float q))
      hts2 htext2 hget2 hnf
  · intro hF hS
    have hnf : numForced (parseNumWrapper fieldRaw).2 orig = none := by
      rw [hwrap]; exact numForced_fail orig hF hS
    exact evalParsed_plain_forced_fail v raw now fieldRaw op operand orig hts2 htext2 hget2 hnf
  · rcases hnf : numForced (parseNumWrapper fieldRaw).2 orig with _ | lv
    · exact ⟨false,
        evalParsed_plain_forced_fail v raw now fieldRaw op operand orig hts2 htext2 hget2 hnf⟩
    · rw [evalParsed_plain v raw now fieldRaw op operand orig lv hts2 htext2 hget2 hnf]
      fin_cases hop <;> exact ⟨_, rfl⟩

/-- C9 witness: num(v) == 5 on a value with v:"5" goes through the
parsed float and is true; num(name) == 1 on name:"bob" is Ok(false),
not an error. -/
theorem C9_num_wrapper_witness :
    evalParsedCondition (JValue.obj [("v", .str "5")]) "" 0 "num(v)" "==" "5" =
      evalFieldOps 0 (.num (.float (mkRat 5 1))) "==" "5" ∧
    evalFieldOps 0 (JValue.num (.float (mkRat 5 1))) "==" "5" = .ok true ∧
    evalParsedCondition (JValue.obj [("name", .str "bob")]) "" 0 "num(name)" "==" "1" =
      .ok false :=
  ⟨(C9_num_wrapper (JValue.obj [("v", .str "5")]) "" 0 "num(v)" "v" "==" "5" (.str "5")
      rfl (by decide) (by decide) rfl (by decide)).2.1 "5" (mkRat 5 1) rfl rfl,
   rfl,
   (C9_num_wrapper (JValue.obj [("name", .str "bob")]) "" 0 "num(name)" "name" "==" "1"
      (.str "bob") rfl (by decide) (by decide) rfl (by decide)).2.2.1 rfl
      (fun s hs => by cases hs; rfl)⟩

/-- Unfolding equation of the OR fold at a cons cell. -/
theorem evalClauseList_cons (v : JValue) (raw : String) (now : Int)
    (c : String) (rest : List String) :
    evalClauseList v raw now (c :: rest) =
      if c == "" then evalClauseList v raw now rest
      else (evaluateAndClause v raw now c).orElse (fun _ => evalClauseList v raw now rest) := rfl

/-- The OR fold over clauses, when every earlier clause is blank or
fails, reduces to the continuation at the first live clause. -/
theorem evalClauseList_append (v : JValue) (raw : String) (now : Int)
    (pre : List String) (c : String) (rest : List String)
    (hpre : ∀ p ∈ pre, p = "" ∨ evaluateAndClause v raw now p = .ok false)
    (hc : c ≠ "") :
    evalClauseList v raw now (pre ++ c :: rest) =
      (evaluateAndClause v raw now c).orElse (fun _ => evalClauseList v raw now rest) := by
  induction pre with
  | nil =>
    rw [List.nil_append, evalClauseList_cons, beq_false_of_ne hc]
    simp only [Bool.false_eq_true, if_false]
  | cons p ps ih =>
    have hps : ∀ x ∈ ps, x = "" ∨ evaluateAndClause v raw now x = .ok false :=
      fun x hx => hpre x (List.mem_cons_of_mem p hx)
    rcases hpre p (List.mem_cons_self p ps) with hblank | hfail
    · subst hblank
      rw [List.cons_append, evalClauseList_cons]
      simp only [show (("" : String) == "") = true from rfl, if_true]
      exact ih hps
    · by_cases hpb : p = ""
      · subst hpb
        rw [List.cons_append, evalClauseList_cons]
        simp only [show (("" : String) == "") = true from rfl, if_true]
        exact ih hps
      · rw [List.cons_append, evalClauseList_cons, beq_false_of_ne hpb, hfail]
        simp only [Bool.false_eq_true, if_false, orElse_ok_false]
        exact ih hps

/-- C1 counterexample: the first clause of x != 1||junk matches on the
null value, the second clause junk is malformed (no operator), and yet
evaluate returns Ok(true) where the claim demands the InvalidFormat
error. -/
theorem C1_counterexample :
    evaluate JValue.null "" 0 "x != 1||junk" = .ok true ∧
    evaluateSingleCondition JValue.null "" 0 "junk" = .err (.invalidFormat "junk") ∧
    orClausesOf "x != 1||junk" = ["x != 1", "junk"] :=
  ⟨rfl, rfl, rfl⟩

/-- C1 amended: an InvalidFormat error aborts the whole query
evaluation only when it is encountered before any clause matches: if
every clause before some clause c is blank or fails, then a match of c
short-circuits the query to Ok(true) without evaluating later clauses,
and an error in c aborts the query with that error. -/
theorem C1_amended (v : JValue) (raw : String) (now : Int) (q : String)
    (pre : List String) (c : String) (rest : List String)
    (hq : strTrim q ≠ "")
    (hstruct : (OPERATORS.any (fun op => containsSub q op)) = true)
    (hsplit : orClausesOf q = pre ++ c :: rest)
    (hpre : ∀ p ∈ pre, p = "" ∨ evaluateAndClause v raw now p = .ok false)
    (hc : c ≠ "") :
    (evaluateAndClause v raw now c = .ok true → evaluate v raw now q = .ok true) ∧
    (∀ e, evaluateAndClause v raw now c = .err e → evaluate v raw now q = .err e) := by
  have hev : evaluate v raw now q =
      (evaluateAndClause v raw now c).orElse (fun _ => evalClauseList v raw now rest) := by
    rw [evaluate_structured v raw now q hq hstruct, hsplit]
    exact evalClauseList_append v raw now pre c rest hpre hc
  constructor
  · intro htrue
    rw [hev, htrue, orElse_ok_true]
  · intro e herr
    rw [hev, herr, orElse_err]

/-- C1 amended witness: the amended statement at the counterexample
query, whose first clause matches, giving Ok(true). -/
theorem C1_amended_witness :
    evaluate JValue.null "" 0 "x != 1||junk" = .ok true :=
  (C1_amended JValue.null "" 0 "x != 1||junk" [] "x != 1" ["junk"]
    (by decide) (by decide) rfl (fun p hp => absurd hp (List.not_mem_nil p))
    (by decide)).1 rfl

/-- A result and its boolean negation by mapB are complementary
whenever the result is not the panic marker. -/
theorem complementary_mapB_not (r : EvalResult) (hr : r ≠ .panicked) :
    complementary r (r.mapB (fun b => !b)) := by
  cases r with
  | ok b => exact Or.inl ⟨b, rfl, rfl⟩
  | err e => exact Or.inr ⟨e, e, rfl, rfl⟩
  | panicked => exact absurd rfl hr

/-- Range complementarity on a timestamp field. -/
theorem compl_ts (v : JValue) (raw : String) (now : Int) (fieldRaw operand : String)
    (hts : TIMESTAMP_KEYS.contains (parseNumWrapper fieldRaw).1 = true) :
    complementary (evalParsedCondition v raw now fieldRaw "between" operand)
      (evalParsedCondition v raw now fieldRaw "!between" operand) := by
  rw [evalParsed_ts_between v raw now fieldRaw operand hts,
      evalParsed_ts_nbetween v raw now fieldRaw operand hts]
  exact complementary_mapB_not _ (evaluateBetween_ne_panicked _ _ _ _)

/-- Range complementarity on a present ordinary field whose forced
value is available. -/
theorem compl_plain (v : JValue) (raw : String) (now : Int) (fieldRaw operand : String)
    (orig logValue : JValue)
    (hts : TIMESTAMP_KEYS.contains (parseNumWrapper fieldRaw).1 = false)
    (htext : (parseNumWrapper fieldRaw).1 ≠ "text")
    (hget : getValueByField v (parseNumWrapper fieldRaw).1 = some orig)
    (hnf : numForced (parseNumWrapper fieldRaw).2 orig = some logValue) :
    complementary (evalParsedCondition v raw now fieldRaw "between" operand)
      (evalParsedCondition v raw now fieldRaw "!between" operand) := by
  rw [evalParsed_plain v raw now fieldRaw "between" operand orig logValue hts htext hget hnf,
      evalParsed_plain v raw now fieldRaw "!between" operand orig logValue hts htext hget hnf]
  have h1 : evalFieldOps now logValue "between" operand =
      evaluateBetween logValue now operand false := rfl
  have h2 : evalFieldOps now logValue "!between" operand =
      (evaluateBetween logValue now operand false).mapB (fun b => !b) := rfl
  rw [h1, h2]
  exact complementary_mapB_not _ (evaluateBetween_ne_panicked _ _ _ _)

/-- Range complementarity on the text pseudo-field. -/
theorem compl_text (rawLine operand : String) :
    complementary (evalTextCondition rawLine "between" operand)
      (evalTextCondition rawLine "!between" operand) := by
  unfold evalTextCondition
  rcases hsp : splitOnStr operand ".." with _ | ⟨p0, _ | ⟨p1, _ | ⟨p2, tail⟩⟩⟩
  · exact Or.inr ⟨_, _, rfl, rfl⟩
  · exact Or.inr ⟨_, _, rfl, rfl⟩
  · dsimp only
    rcases h1 : parseF64? (trimQuotes (strTrim p0)) with _ | n1
    · exact Or.inr ⟨_, _, rfl, rfl⟩
    · rcases h2 : parseF64? (trimQuotes (strTrim p1)) with _ | n2
      · exact Or.inr ⟨_, _, rfl, rfl⟩
      · exact Or.inl ⟨_, rfl, rfl⟩
  · exact Or.inr ⟨_, _, rfl, rfl⟩

/-- Commutation of the auto-swap lower bound on integers. -/
theorem int_min_comm (a b : Int) : (if a < b then a else b) = if b < a then b else a := by
  by_cases h : a < b
  · rw [if_pos h, if_neg (by omega)]
  · by_cases h2 : b < a
    · rw [if_neg h, if_pos h2]
    · rw [if_neg h, if_neg h2]
      omega

/-- Commutation of the auto-swap upper bound on integers. -/
theorem int_max_comm (a b : Int) : (if a < b then b else a) = if b < a then a else b := by
  by_cases h : a < b
  · rw [if_pos h, if_neg (by omega)]
  · by_cases h2 : b < a
    · rw [if_neg h, if_pos h2]
    · rw [if_neg h, if_neg h2]
      omega

/-- Commutation of the auto-swap lower bound on rationals. -/
theorem rat_min_comm (a b : Rat) : (if a < b then a else b) = if b < a then b else a := by
  by_cases h : a < b
  · rw [if_pos h, if_neg (lt_asymm h)]
  · by_cases h2 : b < a
    · rw [if_neg h, if_pos h2]
    · rw [if_neg h, if_neg h2]
      exact le_antisymm (le_of_not_lt h) (le_of_not_lt h2)

/-- Commutation of the auto-swap upper bound on rationals. -/
theorem rat_max_comm (a b : Rat) : (if a < b then b else a) = if b < a then a else b := by
  by_cases h : a < b
  · rw [if_pos h, if_neg (lt_asymm h)]
  · by_cases h2 : b < a
    · rw [if_neg h, if_pos h2]
    · rw [if_neg h, if_neg h2]
      exact le_antisymm (le_of_not_lt h2) (le_of_not_lt h)

/-- Auto-swap on a timestamp range: supplying the bounds in either
order gives the same outcome. -/
theorem swap_ts (v : JValue) (now : Int) (s e : String)
    (h1 : splitOnStr (s ++ ".." ++ e) ".." = [s, e])
    (h2 : splitOnStr (e ++ ".." ++ s) ".." = [e, s]) :
    sameOutcome (evaluateBetween v now (s ++ ".." ++ e) true)
      (evaluateBetween v now (e ++ ".." ++ s) true) := by
  unfold evaluateBetween
  rw [h1, h2]
  dsimp only
  rcases hx : extractAndParseTimestamp v with _ | t
  · exact Or.inl ⟨false, rfl, rfl⟩
  · rcases hA : parseTimeString now (trimQuotes (strTrim s)) with eA | t1
    · rcases hB : parseTimeString now (trimQuotes (strTrim e)) with eB | t2
      · exact Or.inr ⟨_, _, rfl, rfl⟩
      · exact Or.inr ⟨_, _, rfl, rfl⟩
    · rcases hB : parseTimeString now (trimQuotes (strTrim e)) with eB | t2
      · exact Or.inr ⟨_, _, rfl, rfl⟩
      · refine Or.inl ⟨decide ((if t1 < t2 then t1 else t2) ≤ t) &&
          decide (t ≤ (if t1 < t2 then t2 else t1)), rfl, ?_⟩
        show EvalResult.ok (decide ((if t2 < t1 then t2 else t1) ≤ t) &&
          decide (t ≤ (if t2 < t1 then t1 else t2))) = _
        rw [int_min_comm t2 t1, int_max_comm t2 t1]

/-- Auto-swap on a numeric range over a value that is numeric or has
no string form (the lexicographic string fallback is excluded). -/
theorem swap_numeric (lv : JValue) (now : Int) (s e : String)
    (h1 : splitOnStr (s ++ ".." ++ e) ".." = [s, e])
    (h2 : splitOnStr (e ++ ".." ++ s) ".." = [e, s])
    (hkind : lv.asF64.isSome = true ∨ lv.asStr = none) :
    sameOutcome (evaluateBetween lv now (s ++ ".." ++ e) false)
      (evaluateBetween lv now (e ++ ".." ++ s) false) := by
  unfold evaluateBetween
  rw [h1, h2]
  dsimp only
  rcases hF : lv.asF64 with _ | n
  · rcases hS : lv.asStr with _ | str0
    · exact Or.inl ⟨false, rfl, rfl⟩
    · rcases hkind with hk | hk
      · rw [hF] at hk
        exact absurd hk (by simp)
      · rw [hS] at hk
        exact absurd hk (by simp)
  · rcases hA : parseF64? (trimQuotes (strTrim s)) with _ | n1
    · rcases hB : parseF64? (trimQuotes (strTrim e)) with _ | n2
      · exact Or.inr ⟨_, _, rfl, rfl⟩
      · exact Or.inr ⟨_, _, rfl, rfl⟩
    · rcases hB : parseF64? (trimQuotes (strTrim e)) with _ | n2
      · exact Or.inr ⟨_, _, rfl, rfl⟩
      · refine Or.inl ⟨decide ((if n1 < n2 then n1 else n2) ≤ n) &&
          decide (n ≤ (if n1 < n2 then n2 else n1)), rfl, ?_⟩
        show EvalResult.ok (decide ((if n2 < n1 then n2 else n1) ≤ n) &&
          decide (n ≤ (if n2 < n1 then n1 else n2))) = _
        rw [rat_min_comm n2 n1, rat_max_comm n2 n1]

/-- Auto-swap on a text range: the numbers of the raw line are tested
against the same swapped interval in either bound order. -/
theorem swap_text (rawLine s e : String)
    (h1 : splitOnStr (s ++ ".." ++ e) ".." = [s, e])
    (h2 : splitOnStr (e ++ ".." ++ s) ".." = [e, s]) :
    sameOutcome (evalTextCondition rawLine "between" (s ++ ".." ++ e))
      (evalTextCondition rawLine "between" (e ++ ".." ++ s)) := by
  unfold evalTextCondition
  rw [h1, h2]
  dsimp only
  rcases hA : parseF64? (trimQuotes (strTrim s)) with _ | n1
  · rcases hB : parseF64? (trimQuotes (strTrim e)) with _ | n2
    · exact Or.inr ⟨_, _, rfl, rfl⟩
    · exact Or.inr ⟨_, _, rfl, rfl⟩
  · rcases hB : parseF64? (trimQuotes (strTrim e)) with _ | n2
    · exact Or.inr ⟨_, _, rfl, rfl⟩
    · refine Or.inl ⟨(extractNumbers rawLine).any
        (fun n => decide ((if n1 < n2 then n1 else n2) ≤ n) &&
                  decide (n ≤ (if n1 < n2 then n2 else n1))), rfl, ?_⟩
      show EvalResult.ok ((extractNumbers rawLine).any
        (fun n => decide ((if n2 < n1 then n2 else n1) ≤ n) &&
                  decide (n ≤ (if n2 < n1 then n1 else n2)))) = _
      simp only [rat_min_comm n2 n1, rat_max_comm n2 n1]

/-- C5 counterexample: on an absent plain field, between and !between
both return Ok(false) — not complements; and in the lexicographic
string fallback, swapping the bounds changes the result — no
auto-swap. -/
theorem C5_counterexample :
    (evalParsedCondition JValue.null "" 0 "x" "between" "1..2" = .ok false ∧
     evalParsedCondition JValue.null "" 0 "x" "!between" "1..2" = .ok false) ∧
    (evalParsedCondition (JValue.obj [("name", .str "m")]) "" 0 "name" "between" "a..z"
        = .ok true ∧
     evalParsedCondition (JValue.obj [("name", .str "m")]) "" 0 "name" "between" "z..a"
        = .ok false) :=
  ⟨⟨rfl, rfl⟩, ⟨rfl, rfl⟩⟩

/-- C5 amended: between and !between are exact complements (same
boolean, negated, or errors on both sides) whenever the field is a
timestamp key, the text pseudo-field, or resolves to a value surviving
the num() conversion; on an absent plain field both return Ok(false).
Supplying the bounds in either order gives the same outcome for
timestamp ranges, for numeric ranges over numeric (or string-less)
values, and for text ranges; the lexicographic string fallback instead
uses the bounds in the given order. -/
theorem C5_between_props :
    (∀ (v : JValue) (raw : String) (now : Int) (fieldRaw operand : String),
      (TIMESTAMP_KEYS.contains (parseNumWrapper fieldRaw).1 = true ∨
       (parseNumWrapper fieldRaw).1 = "text" ∨
       (∃ orig logValue, getValueByField v (parseNumWrapper fieldRaw).1 = some orig ∧
         numForced (parseNumWrapper fieldRaw).2 orig = some logValue)) →
      complementary (evalParsedCondition v raw now fieldRaw "between" operand)
        (evalParsedCondition v raw now fieldRaw "!between" operand)) ∧
    (∀ (v : JValue) (raw : String) (now : Int) (fieldRaw operand : String),
      TIMESTAMP_KEYS.contains (parseNumWrapper fieldRaw).1 = false →
      (parseNumWrapper fieldRaw).1 ≠ "text" →
      getValueByField v (parseNumWrapper fieldRaw).1 = none →
      evalParsedCondition v raw now fieldRaw "between" operand = .ok false ∧
      evalParsedCondition v raw now fieldRaw "!between" operand = .ok false) ∧
    (∀ (v : JValue) (now : Int) (s e : String),
      splitOnStr (s ++ ".." ++ e) ".." = [s, e] →
      splitOnStr (e ++ ".." ++ s) ".." = [e, s] →
      sameOutcome (evaluateBetween v now (s ++ ".." ++ e) true)
        (evaluateBetween v now (e ++ ".." ++ s) true)) ∧
    (∀ (lv : JValue) (now : Int) (s e : String),
      splitOnStr (s ++ ".." ++ e) ".." = [s, e] →
      splitOnStr (e ++ ".." ++ s) ".." = [e, s] →
      (lv.asF64.isSome = true ∨ lv.asStr = none) →
      sameOutcome (evaluateBetween lv now (s ++ ".." ++ e) false)
        (evaluateBetween lv now (e ++ ".." ++ s) false)) ∧
    (∀ (rawLine s e : String),
      splitOnStr (s ++ ".." ++ e) ".." = [s, e] →
      splitOnStr (e ++ ".." ++ s) ".." = [e, s] →
      sameOutcome (evalTextCondition rawLine "between" (s ++ ".." ++ e))
        (evalTextCondition rawLine "between" (e ++ ".." ++ s))) := by
  refine ⟨?_, ?_, swap_ts, swap_numeric, swap_text⟩
  · intro v raw now fieldRaw operand hdisj
    by_cases hts : TIMESTAMP_KEYS.contains (parseNumWrapper fieldRaw).1 = true
    · exact compl_ts v raw now fieldRaw operand hts
    · have hts2 : TIMESTAMP_KEYS.contains (parseNumWrapper fieldRaw).1 = false :=
        Bool.not_eq_true _ ▸ eq_false_of_ne_true hts
      by_cases htxt : (parseNumWrapper fieldRaw).1 = "text"
      · rw [evalParsed_text v raw now fieldRaw "between" operand htxt,
            evalParsed_text v raw now fieldRaw "!between" operand htxt]
        exact compl_text raw operand
      · rcases hdisj with h | h | ⟨orig, logValue, hget, hnf⟩
        · exact absurd h hts
        · exact absurd h htxt
        · exact compl_plain v raw now fieldRaw operand orig logValue hts2 htxt hget hnf
  · intro v raw now fieldRaw operand hts htxt habs
    constructor
    · rw [evalParsed_absent v raw now fieldRaw "between" operand hts htxt habs]
      rfl
    · rw [evalParsed_absent v raw now fieldRaw "!between" operand hts htxt habs]
      rfl

/-- C5 witness: the amended conjuncts at concrete inputs — a present
numeric field, an absent field, a timestamp range, a numeric range and
a text range with both bound orders. -/
theorem C5_between_props_witness :
    complementary
      (evalParsedCondition (JValue.obj [("status", .num (.int 5))]) "" 0 "status" "between" "1..9")
      (evalParsedCondition (JValue.obj [("status", .num (.int 5))]) "" 0 "status" "!between" "1..9") ∧
    (evalParsedCondition JValue.null "" 0 "y" "between" "1..2" = .ok false ∧
     evalParsedCondition JValue.null "" 0 "y" "!between" "1..2" = .ok false) ∧
    sameOutcome (evaluateBetween (JValue.obj []) 0 ("now" ++ ".." ++ "now") true)
      (evaluateBetween (JValue.obj []) 0 ("now" ++ ".." ++ "now") true) ∧
    sameOutcome (evaluateBetween (JValue.num (.int 5)) 0 ("1" ++ ".." ++ "9") false)
      (evaluateBetween (JValue.num (.int 5)) 0 ("9" ++ ".." ++ "1") false) ∧
    sameOutcome (evalTextCondition "x 7 y" "between" ("5" ++ ".." ++ "9"))
      (evalTextCondition "x 7 y" "between" ("9" ++ ".." ++ "5")) :=
  ⟨C5_between_props.1 (JValue.obj [("status", .num (.int 5))]) "" 0 "status" "1..9"
      (Or.inr (Or.inr ⟨.num (.int 5), .num (.int 5), rfl, rfl⟩)),
   C5_between_props.2.1 JValue.null "" 0 "y" "1..2" (by decide) (by decide) rfl,
   C5_between_props.2.2.1 (JValue.obj []) 0 "now" "now" (by decide) (by decide),
   C5_between_props.2.2.2.1 (JValue.num (.int 5)) 0 "1" "9" (by decide) (by decide)
      (Or.inl rfl),
   C5_between_props.2.2.2.2 "x 7 y" "5" "9" (by decide) (by decide)⟩

/-- C10: evaluation is total and never reaches a panic: for every
structured value, raw line, clock value and query string the evaluator
returns an ok or err result (the panic marker standing for the
unreachable arm of the source is never produced), and the split at an
identified operator always succeeds, so the parts-too-short error
branch after the split is dead code. -/
theorem C10_no_panic :
    (∀ (v : JValue) (raw : String) (now : Int) (q : String),
      evaluate v raw now q ≠ .panicked) ∧
    (∀ cond op : String, selectedOp cond = some op →
      (splitFirstStr cond op).isSome = true) := by
  constructor
  · intro v raw now q
    unfold evaluate
    split
    · simp
    · split
      · exact evalClauseList_ne_panicked _ _ _ _
      · simp
  · intro cond op hfind
    have hc : containsSub cond op = true := List.find?_some hfind
    unfold containsSub at hc
    rcases hx : splitFirst op.data cond.data with _ | p
    · rw [hx] at hc
      simp at hc
    · simp [splitFirstStr, hx]

/-- C10 witness: a query through the text threshold branch evaluates
without panic,
and the split succeeds for its identified operator. -/
theorem C10_no_panic_witness :
    evaluate JValue.null "" 0 "text contains+5" ≠ .panicked ∧
    (splitFirstStr "text contains+5" "contains+").isSome = true :=
  ⟨C10_no_panic.1 JValue.null "" 0 "text contains+5",
   C10_no_panic.2 "text contains+5" "contains+" (by decide)⟩

end LogLens
